import Mathlib

/-!
# Verification of scripts/fetch_monkeytype.py

A shallow embedding of the MonkeyType badge generator
(`scripts/fetch_monkeytype.py`) together with proofs about it.

Modelling conventions:
* Python strings are `List Char` (Python strings are sequences of Unicode
  code points, and `len` counts code points).
* JSON-decoded values are the inductive `JValue`; JSON numbers and Python
  floats are modelled as exact rationals `ℚ`.  This is the usual
  idealisation of IEEE-754 arithmetic by exact arithmetic; all concrete
  payloads used below are exactly representable and small, so the modelled
  results coincide with the float results of the script.
* Python `dict`s decoded from JSON are association lists; `json.loads`
  keeps the *last* binding for a duplicated key, which `jget` mirrors.
* The one HTTP request is modelled by a `FetchOutcome` value describing
  what the outside world did (transport exception, or a response with a
  status code and an optional successfully-decoded JSON body).  All
  exception handling in the script turns into totality of the Lean
  functions: every handled failure is a `none` result, never an error.
-/

/-- A JSON value as produced by `res.json()` in the script. -/
inductive JValue where
  | null : JValue
  | bool : Bool → JValue
  | num : ℚ → JValue
  | str : List Char → JValue
  | arr : List JValue → JValue
  | obj : List (List Char × JValue) → JValue

/-- Dictionary lookup on a decoded JSON object.  Python's `json.loads`
keeps the last binding of a duplicated key, so later bindings shadow
earlier ones.  `jget o k = some v` also models `k in o` being true. -/
def jget (l : List (List Char × JValue)) (k : List Char) : Option JValue :=
  match l with
  | [] => none
  | (k2, v) :: rest =>
    match jget rest k with
    | some r => some r
    | none => if k2 = k then some v else none

/-- Leading decimal digits of a character list, and the remainder. -/
def takeDigits (l : List Char) : List Char × List Char :=
  match l with
  | [] => ([], [])
  | c :: cs =>
    if c.isDigit then
      let p := takeDigits cs
      (c :: p.1, p.2)
    else ([], c :: cs)

/-- Value of a list of decimal digits (most significant first). -/
def digitsToNat (l : List Char) : ℕ :=
  l.foldl (fun a c => 10 * a + (c.toNat - 48)) 0

/-- Modelled from the source's use of Python `float(...)` on string input:
parse an optional sign, an integer part and/or a fractional part, and an
optional decimal exponent, after stripping surrounding spaces.  Exotic
accepted forms of CPython (`inf`, `nan`, underscores in literals, other
Unicode whitespace or digits) are outside the modelled fragment and map
to `none`, as do all strings `float` rejects. -/
def strFloat? (s : List Char) : Option ℚ :=
  let t := ((s.dropWhile (fun c => c = ' ')).reverse.dropWhile
      (fun c => c = ' ')).reverse
  let sgnAndRest : ℚ × List Char :=
    match t with
    | '-' :: r => (-1, r)
    | '+' :: r => (1, r)
    | r => (1, r)
  let sgn := sgnAndRest.1
  let t1 := sgnAndRest.2
  let ipRest := takeDigits t1
  let ip := ipRest.1
  let fpRest : List Char × List Char :=
    match ipRest.2 with
    | '.' :: r => takeDigits r
    | r => ([], r)
  let fp := fpRest.1
  if ip.length + fp.length = 0 then none
  else
    let mant : ℚ := (digitsToNat ip : ℚ) + (digitsToNat fp : ℚ) / (10 : ℚ) ^ fp.length
    match fpRest.2 with
    | [] => some (sgn * mant)
    | e :: r =>
      if e = 'e' ∨ e = 'E' then
        let esgnAndRest : Bool × List Char :=
          match r with
          | '-' :: rr => (true, rr)
          | '+' :: rr => (false, rr)
          | rr => (false, rr)
        let edRest := takeDigits esgnAndRest.2
        if edRest.1 = [] ∨ edRest.2 ≠ [] then none
        else
          let scale : ℚ := (10 : ℚ) ^ digitsToNat edRest.1
          some (sgn * mant * (if esgnAndRest.1 then scale⁻¹ else scale))
      else none

/-- Python `float(v)` applied to a JSON-decoded value `v`:
numbers pass through, booleans coerce to `1.0`/`0.0`, numeric strings are
parsed, and everything else (`None`, lists, dicts) raises `TypeError`,
modelled by `none`. -/
def pyFloat : JValue → Option ℚ
  | .num q => some q
  | .bool b => some (if b then 1 else 0)
  | .str s => strFloat? s
  | _ => none

/-- The key `"wpm"`. -/
def wpmKey : List Char := ['w', 'p', 'm']

/-- The key `"acc"`. -/
def accKey : List Char := ['a', 'c', 'c']

/-- The contribution of one decoded record to the speed list `wpms`:
`float(item.get('wpm', 0))` when `item` is a dict containing the key
`'wpm'` and the coercion succeeds, skipped (`none`) otherwise. -/
def recordWpm? : JValue → Option ℚ
  | .obj kvs =>
    match jget kvs wpmKey with
    | some v => pyFloat v
    | none => none
  | _ => none

/-- The contribution of one decoded record to the accuracy list `accs`,
exactly as `recordWpm?` but for the key `'acc'`. -/
def recordAcc? : JValue → Option ℚ
  | .obj kvs =>
    match jget kvs accKey with
    | some v => pyFloat v
    | none => none
  | _ => none

/-- The speed list accumulated by the per-record loop of `fetch_stats`. -/
def wpms (items : List JValue) : List ℚ :=
  items.filterMap recordWpm?

/-- The accuracy list accumulated by the per-record loop of `fetch_stats`. -/
def accs (items : List JValue) : List ℚ :=
  items.filterMap recordAcc?

/-- Python `round(x)` on a float: round to the nearest integer, ties to
even (banker's rounding). -/
def pyRound (q : ℚ) : ℤ :=
  let f : ℤ := ⌊q⌋
  let r : ℚ := q - f
  if r < 1/2 then f
  else if (1:ℚ)/2 < r then f + 1
  else if f % 2 = 0 then f else f + 1

/-- `safe_int` of the script on its actual call site domain: its argument
is always a number there (`max(wpms)` or the int `0`), on which
`int(round(float(v)))` never raises, so the `except` branch is dead and
the function is Python rounding. -/
def safe_int (q : ℚ) : ℤ := pyRound q

/-- `max(l)` of Python for a nonempty list, `0` for the empty list,
i.e. the expression `max(wpms) if wpms else 0` of the script. -/
def listMax : List ℚ → ℚ
  | [] => 0
  | x :: xs => xs.foldl max x

/-- `sum(l)` of Python: a left fold of addition starting from `0`. -/
def listSum (l : List ℚ) : ℚ := l.foldl (· + ·) 0

/-- A Python number as stored in the `avg_acc` field: `round(0, 1)` is
the int `0`, while `round(mean, 1)` on a float is a float equal to an
integer number of tenths, stored here as that integer (`tenths z`
represents the float `z / 10`). -/
inductive PyNum where
  | intVal : ℤ → PyNum
  | tenths : ℤ → PyNum
deriving DecidableEq

/-- The dict returned by `fetch_stats` on success. -/
structure Stats where
  best_wpm : ℤ
  avg_acc : PyNum
deriving DecidableEq

/-- The part of `fetch_stats` from the `isinstance(data, list)` check
onward, applied to an already-decoded JSON body `data`:
reject non-lists and the empty list, then collect the speed and accuracy
lists and aggregate them:
`best_wpm = safe_int(max(wpms) if wpms else 0)` and
`avg_acc = round((sum(accs) / len(accs)) if accs else 0, 1)`. -/
def statsOfData (data : JValue) : Option Stats :=
  match data with
  | .arr items =>
    match items with
    | [] => none
    | _ :: _ =>
      some
        { best_wpm := safe_int (listMax (wpms items))
          avg_acc :=
            if accs items = [] then .intVal 0
            else .tenths (pyRound (10 * (listSum (accs items) / ((accs items).length : ℚ)))) }
  | _ => none

/-- What the outside world did for the one `requests.get` call:
either the call raised (connection error, timeout, …), or a response
arrived with a status code and a body; `body = none` means the body was
not decodable as JSON (`res.json()` raised). -/
inductive FetchOutcome where
  | exc : FetchOutcome
  | resp : ℕ → Option JValue → FetchOutcome

/-- `fetch_stats` of the script as a function of the request's outcome:
a transport exception, a status other than 200, an undecodable body, and
a body that is not a nonempty list all yield `None`; otherwise the
records are aggregated by `statsOfData`. -/
def fetch_stats : FetchOutcome → Option Stats
  | .exc => none
  | .resp status body =>
    if status ≠ 200 then none
    else
      match body with
      | none => none
      | some data => statsOfData data

/-- String form of a Python int under an f-string. -/
def intRepr (z : ℤ) : List Char := (toString z).toList

/-- String form under an f-string of the float `z / 10` (the exact
multiples of one tenth produced by `round(x, 1)`): Python's shortest
round-trip repr prints them as `<int part>.<one digit>`. -/
def tenthsRepr (z : ℤ) : List Char :=
  (if z < 0 then ['-'] else []) ++
    (toString (z.natAbs / 10)).toList ++ '.' :: (toString (z.natAbs % 10)).toList

/-- String form of the `avg_acc` field under an f-string. -/
def pyNumRepr : PyNum → List Char
  | .intVal z => intRepr z
  | .tenths z => tenthsRepr z

/-- The separator the source file puts between the WPM figure and the
accuracy in the f-string of `main`.  The file's bytes there are
`C3 82 C2 B7`, which decode (the file is UTF-8) to the two characters
U+00C2 followed by U+00B7 — a mojibake of the middle dot `·`, whose
UTF-8 encoding `C2 B7` was re-encoded as if it were Latin-1 text. -/
def labelSep : List Char := [' ', 'W', 'P', 'M', ' ', 'Â', '·', ' ']

/-- The display string computed in `main`: `"no data"` when
`fetch_stats` returned `None` (the dict returned on success is nonempty,
so `not stats` is exactly `stats is None`), otherwise the f-string
`f"{stats['best_wpm']} WPM Â· {stats['avg_acc']}%"` (with the source's
mojibake separator, see `labelSep`). -/
def valueText : Option Stats → List Char
  | none => "no data".toList
  | some s => intRepr s.best_wpm ++ labelSep ++ pyNumRepr s.avg_acc ++ ['%']

/-- `html.escape` on one character: `&`, `<`, `>`, `"`, `'` become
entities, everything else is unchanged.  (`html.escape` replaces `&`
first, so escaping is exactly this per-character substitution.) -/
def escChar (c : Char) : List Char :=
  if c = '&' then "&amp;".toList
  else if c = '<' then "&lt;".toList
  else if c = '>' then "&gt;".toList
  else if c = '"' then "&quot;".toList
  else if c = Char.ofNat 39 then "&#x27;".toList
  else [c]

/-- `html.escape(s)` with its default `quote=True`. -/
def escapeHtml : List Char → List Char
  | [] => []
  | c :: cs => escChar c ++ escapeHtml cs

/-- The fixed left segment width of `render_badge`. -/
def leftWidth : ℕ := 72

/-- `right_width = max(60, 7 * len(value_text) + 20)` of `render_badge`. -/
def rightWidth (text : List Char) : ℕ := max 60 (7 * text.length + 20)

/-- `width = left_width + right_width` of `render_badge`. -/
def badgeWidth (text : List Char) : ℕ := leftWidth + rightWidth text

/-- String form under `str.format` of a Python int. -/
def natRepr (n : ℕ) : List Char := (toString n).toList

/-- String form under `str.format` of the float `n / 2`, as produced for
the text centers (`left_width / 2` and `left_width + right_width / 2`,
true divisions of ints, hence floats that are halves): Python prints
them as `<n/2>.0` or `<n/2>.5`. -/
def halfRepr (n : ℕ) : List Char :=
  (toString (n / 2)).toList ++ (if n % 2 = 0 then ".0" else ".5").toList

/-- `BADGE_TEMPLATE` with its format slots filled, given the text `text`
(used for the geometry) and the already-escaped `esc` inserted in the
`label` and `value_text` slots.  The slots appear, in order:
width, width, label, label, width, left_width, right_width, width,
left_center, right_center, value_text. -/
def render_filled (text esc : List Char) : List Char :=
  "<svg xmlns=\"http://www.w3.org/2000/svg\" width=\"".toList ++
  natRepr (badgeWidth text) ++
  "\" height=\"20\" viewBox=\"0 0 ".toList ++
  natRepr (badgeWidth text) ++
  " 20\" role=\"img\" aria-label=\"MonkeyType: ".toList ++
  esc ++
  "\">\n  <title>MonkeyType: ".toList ++
  esc ++
  "</title>\n  <linearGradient id=\"g\" x2=\"0\" y2=\"100%\">\n    <stop offset=\"0\" stop-color=\"#bbb\" stop-opacity=\".1\"/>\n    <stop offset=\"1\" stop-opacity=\".1\"/>\n  </linearGradient>\n  <rect rx=\"3\" width=\"".toList ++
  natRepr (badgeWidth text) ++
  "\" height=\"20\" fill=\"#555\"/>\n  <rect rx=\"3\" x=\"".toList ++
  natRepr leftWidth ++
  "\" width=\"".toList ++
  natRepr (rightWidth text) ++
  "\" height=\"20\" fill=\"#2aa198\"/>\n  <rect rx=\"3\" width=\"".toList ++
  natRepr (badgeWidth text) ++
  "\" height=\"20\" fill=\"url(#g)\"/>\n  <g fill=\"#fff\" text-anchor=\"middle\" font-family=\"DejaVu Sans,Verdana,Geneva,sans-serif\" font-size=\"11\">\n    <text x=\"".toList ++
  halfRepr leftWidth ++
  "\" y=\"14\" fill=\"#fff\">MonkeyType</text>\n    <text x=\"".toList ++
  halfRepr (2 * leftWidth + rightWidth text) ++
  "\" y=\"14\" fill=\"#fff\">".toList ++
  esc ++
  "</text>\n  </g>\n</svg>\n".toList

/-- `render_badge(value_text)` of the script: escape the text once
(`escape(value_text)` appears for both the `label` and `value_text`
slots and is the same string) and fill the template. -/
def render_badge (text : List Char) : List Char :=
  render_filled text (escapeHtml text)

/-- `true` iff the JSON value is a nonempty list, the shape `fetch_stats`
requires of the decoded payload. -/
def isNonemptyList : JValue → Bool
  | .arr (_ :: _) => true
  | _ => false

/-- `startsW pat l` holds when `pat` is an initial segment of `l`. -/
def startsW : List Char → List Char → Bool
  | [], _ => true
  | _ :: _, [] => false
  | p :: ps, c :: cs => p = c && startsW ps cs

/-- Checks that a character list has no occurrence of a raw `<` or `>`,
and that every occurrence of `&` starts one of the five entities
`html.escape` produces — i.e. that none of `<`, `>`, `&` occurs
unescaped. -/
def wellEscaped : List Char → Bool
  | [] => true
  | c :: rest =>
    if c = '<' ∨ c = '>' then false
    else if c = '&' then
      (startsW ['a', 'm', 'p', ';'] rest ||
       startsW ['l', 't', ';'] rest ||
       startsW ['g', 't', ';'] rest ||
       startsW ['q', 'u', 'o', 't', ';'] rest ||
       startsW ['#', 'x', '2', '7', ';'] rest) && wellEscaped rest
    else wellEscaped rest

/-- A well-formed payload with one record, used to exhibit a successful
fetch: `[{"wpm": 100, "acc": 98}]`. -/
def sampleOkBody : JValue :=
  .arr [.obj [(wpmKey, .num 100), (accKey, .num 98)]]

/-- The payload of end-to-end scenario 1 of the specification:
`[{"wpm": 120.4, "acc": 97.2}, {"wpm": 110, "acc": 95}]`. -/
def scenario1 : JValue :=
  .arr [.obj [(wpmKey, .num (1204/10)), (accKey, .num (972/10))],
        .obj [(wpmKey, .num 110), (accKey, .num 95)]]

/-- A two-record list used to exhibit permutation invariance. -/
def permDemoA : List JValue :=
  [.obj [(wpmKey, .num 110)], .obj [(wpmKey, .num 120)]]

/-- `permDemoA` with its two records swapped. -/
def permDemoB : List JValue :=
  [.obj [(wpmKey, .num 120)], .obj [(wpmKey, .num 110)]]

/-! ## Helper lemmas -/

/-- Evaluation rule for `pyRound` when `q` lies in the lower half of the
unit interval starting at `z`. -/
theorem pyRound_eq_down (q : ℚ) (z : ℤ) (h1 : (z:ℚ) ≤ q) (h2 : q < (z:ℚ) + 1/2) :
    pyRound q = z := by
  have hf : ⌊q⌋ = z := Int.floor_eq_iff.mpr ⟨h1, by linarith⟩
  unfold pyRound
  rw [hf, if_pos (by linarith)]

/-- Evaluation rule for `pyRound` when `q` lies in the upper half of the
unit interval starting at `z`. -/
theorem pyRound_eq_up (q : ℚ) (z : ℤ) (h1 : (z:ℚ) + 1/2 < q) (h2 : q < (z:ℚ) + 1) :
    pyRound q = z + 1 := by
  have hf : ⌊q⌋ = z := Int.floor_eq_iff.mpr ⟨by linarith, by linarith⟩
  unfold pyRound
  rw [hf, if_neg (by linarith), if_pos (by linarith)]

/-- A character other than `<`, `>`, `&` is transparent to `wellEscaped`. -/
theorem wellEscaped_cons_other (c : Char) (l : List Char)
    (h1 : c ≠ '<') (h2 : c ≠ '>') (h3 : c ≠ '&') :
    wellEscaped (c :: l) = wellEscaped l := by
  rw [wellEscaped]
  simp [h1, h2, h3]

/-- Prepending the escape of any single character preserves `wellEscaped`. -/
theorem wellEscaped_escChar_append (c : Char) (l : List Char) :
    wellEscaped (escChar c ++ l) = wellEscaped l := by
  by_cases h1 : c = '&'
  · subst h1
    rw [show escChar '&' ++ l = '&' :: 'a' :: 'm' :: 'p' :: ';' :: l from rfl, wellEscaped]
    simp only [startsW]
    simp
    rw [wellEscaped_cons_other _ _ (by decide) (by decide) (by decide),
      wellEscaped_cons_other _ _ (by decide) (by decide) (by decide),
      wellEscaped_cons_other _ _ (by decide) (by decide) (by decide),
      wellEscaped_cons_other _ _ (by decide) (by decide) (by decide)]
  by_cases h2 : c = '<'
  · subst h2
    rw [show escChar '<' ++ l = '&' :: 'l' :: 't' :: ';' :: l from rfl, wellEscaped]
    simp only [startsW]
    simp
    rw [wellEscaped_cons_other _ _ (by decide) (by decide) (by decide),
      wellEscaped_cons_other _ _ (by decide) (by decide) (by decide),
      wellEscaped_cons_other _ _ (by decide) (by decide) (by decide)]
  by_cases h3 : c = '>'
  · subst h3
    rw [show escChar '>' ++ l = '&' :: 'g' :: 't' :: ';' :: l from rfl, wellEscaped]
    simp only [startsW]
    simp
    rw [wellEscaped_cons_other _ _ (by decide) (by decide) (by decide),
      wellEscaped_cons_other _ _ (by decide) (by decide) (by decide),
      wellEscaped_cons_other _ _ (by decide) (by decide) (by decide)]
  by_cases h4 : c = '"'
  · subst h4
    rw [show escChar '"' ++ l = '&' :: 'q' :: 'u' :: 'o' :: 't' :: ';' :: l from rfl,
      wellEscaped]
    simp only [startsW]
    simp
    rw [wellEscaped_cons_other _ _ (by decide) (by decide) (by decide),
      wellEscaped_cons_other _ _ (by decide) (by decide) (by decide),
      wellEscaped_cons_other _ _ (by decide) (by decide) (by decide),
      wellEscaped_cons_other _ _ (by decide) (by decide) (by decide),
      wellEscaped_cons_other _ _ (by decide) (by decide) (by decide)]
  by_cases h5 : c = Char.ofNat 39
  · subst h5
    rw [show escChar (Char.ofNat 39) ++ l = '&' :: '#' :: 'x' :: '2' :: '7' :: ';' :: l from rfl,
      wellEscaped]
    simp only [startsW]
    simp
    rw [wellEscaped_cons_other _ _ (by decide) (by decide) (by decide),
      wellEscaped_cons_other _ _ (by decide) (by decide) (by decide),
      wellEscaped_cons_other _ _ (by decide) (by decide) (by decide),
      wellEscaped_cons_other _ _ (by decide) (by decide) (by decide),
      wellEscaped_cons_other _ _ (by decide) (by decide) (by decide)]
  rw [show escChar c ++ l = c :: l from by simp [escChar, h1, h2, h3, h4, h5]]
  exact wellEscaped_cons_other c l h2 h3 h1

/-- The output of `html.escape` never contains an unescaped `<`, `>`
or `&`. -/
theorem wellEscaped_escapeHtml (s : List Char) : wellEscaped (escapeHtml s) = true := by
  induction s with
  | nil => rfl
  | cons c cs ih => rw [escapeHtml, wellEscaped_escChar_append]; exact ih

/-- A left fold of `max` is an upper bound of its seed and its list. -/
theorem foldl_max_bounds (xs : List ℚ) (x : ℚ) :
    x ≤ xs.foldl max x ∧ ∀ y ∈ xs, y ≤ xs.foldl max x := by
  induction xs generalizing x with
  | nil => exact ⟨le_refl x, by simp⟩
  | cons a l ih =>
    have h := ih (max x a)
    simp only [List.foldl_cons]
    refine ⟨le_trans (le_max_left x a) h.1, ?_⟩
    intro y hy
    rcases List.mem_cons.mp hy with h1 | h2
    · subst h1
      exact le_trans (le_max_right x y) h.1
    · exact h.2 y h2

/-- A left fold of `max` is its seed or one of the list elements. -/
theorem foldl_max_mem (xs : List ℚ) (x : ℚ) :
    xs.foldl max x = x ∨ xs.foldl max x ∈ xs := by
  induction xs generalizing x with
  | nil => left; rfl
  | cons a l ih =>
    simp only [List.foldl_cons]
    rcases ih (max x a) with h | h
    · rcases max_choice x a with hx | hx
      · left; rw [h, hx]
      · right; rw [h, hx]; exact List.mem_cons_self a l
    · right; exact List.mem_cons_of_mem a h

/-- `listMax` of a nonempty list is one of its elements. -/
theorem listMax_mem (l : List ℚ) (h : l ≠ []) : listMax l ∈ l := by
  cases l with
  | nil => cases h rfl
  | cons x xs =>
    rw [listMax]
    rcases foldl_max_mem xs x with h1 | h1
    · rw [h1]; exact List.mem_cons_self x xs
    · exact List.mem_cons_of_mem x h1

/-- `listMax` is an upper bound of its list. -/
theorem le_listMax (l : List ℚ) (y : ℚ) (hy : y ∈ l) : y ≤ listMax l := by
  cases l with
  | nil => cases hy
  | cons x xs =>
    rw [listMax]
    rcases List.mem_cons.mp hy with h1 | h2
    · subst h1; exact (foldl_max_bounds xs y).1
    · exact (foldl_max_bounds xs x).2 y h2

/-- `listMax` is invariant under permutation of a nonempty list. -/
theorem listMax_perm (l l2 : List ℚ) (hp : l.Perm l2) (h : l ≠ []) :
    listMax l = listMax l2 := by
  have h2 : l2 ≠ [] := by
    intro he
    exact h (List.Perm.eq_nil (he ▸ hp))
  exact le_antisymm
    (le_listMax l2 _ (hp.mem_iff.mp (listMax_mem l h)))
    (le_listMax l _ (hp.mem_iff.mpr (listMax_mem l2 h2)))

/-- A payload that is not a nonempty list is rejected by the shape check
of `fetch_stats`. -/
theorem statsOfData_eq_none (data : JValue) (h : isNonemptyList data = false) :
    statsOfData data = none := by
  cases data with
  | arr items =>
    cases items with
    | nil => rfl
    | cons a l => simp [isNonemptyList] at h
  | null => rfl
  | bool b => rfl
  | num q => rfl
  | str s => rfl
  | obj kvs => rfl

/-- Evaluation of the aggregation on `sampleOkBody`. -/
theorem sampleOkBody_stats : statsOfData sampleOkBody = some ⟨100, PyNum.tenths 980⟩ := by
  have hw : wpms [JValue.obj [(wpmKey, .num 100), (accKey, .num 98)]] = [100] := by
    simp [wpms, recordWpm?, jget, pyFloat, wpmKey, accKey]
  have ha : accs [JValue.obj [(wpmKey, .num 100), (accKey, .num 98)]] = [98] := by
    simp [accs, recordAcc?, jget, pyFloat, wpmKey, accKey]
  have h100 : pyRound 100 = 100 := pyRound_eq_down 100 100 (by norm_num) (by norm_num)
  have h980 : pyRound 980 = 980 := pyRound_eq_down 980 980 (by norm_num) (by norm_num)
  simp only [sampleOkBody, statsOfData, hw, ha, safe_int, listMax, listSum]
  norm_num [h100, h980]

/-- Evaluation of the aggregation on the scenario-1 payload: the best
speed is `round(120.4) = 120` and the average accuracy is
`round((97.2 + 95) / 2, 1) = 96.1`, i.e. `961` tenths. -/
theorem scenario1_stats : statsOfData scenario1 = some ⟨120, PyNum.tenths 961⟩ := by
  have hw : wpms [JValue.obj [(wpmKey, .num (1204/10)), (accKey, .num (972/10))],
      JValue.obj [(wpmKey, .num 110), (accKey, .num 95)]] = [1204/10, 110] := by
    simp [wpms, recordWpm?, jget, pyFloat, wpmKey, accKey]
  have ha : accs [JValue.obj [(wpmKey, .num (1204/10)), (accKey, .num (972/10))],
      JValue.obj [(wpmKey, .num 110), (accKey, .num 95)]] = [972/10, 95] := by
    simp [accs, recordAcc?, jget, pyFloat, wpmKey, accKey]
  have hmax : listMax [(1204:ℚ)/10, 110] = 1204/10 := by
    simp [listMax]
    norm_num
  have hbest : pyRound ((1204:ℚ)/10) = 120 :=
    pyRound_eq_down _ 120 (by norm_num) (by norm_num)
  have hmean : (10:ℚ) * (listSum [972/10, 95] / (([(972:ℚ)/10, 95]).length : ℚ)) = 961 := by
    simp [listSum]
    norm_num
  have havg : pyRound 961 = 961 := pyRound_eq_down 961 961 (by norm_num) (by norm_num)
  simp only [scenario1, statsOfData, hw, ha, safe_int, hmax, hbest, hmean, havg]
  simp

/-! ## Claims -/

/-- Claim C1 (status: code bug in the source).  On the scenario-1 payload
`[{"wpm": 120.4, "acc": 97.2}, {"wpm": 110, "acc": 95}]` the display
string actually computed by `main` is `"120 WPM Â· 96.1%"` — the
separator is the two characters U+00C2 U+00B7, a mojibake of the middle
dot in the source f-string — and in particular it is *not* the
`"120 WPM · 96.1%"` (single middle dot U+00B7) that the claim states. -/
theorem label_scenario1_mojibake :
    valueText (fetch_stats (FetchOutcome.resp 200 (some scenario1)))
      = "120 WPM Â· 96.1%".toList ∧
    valueText (fetch_stats (FetchOutcome.resp 200 (some scenario1)))
      ≠ "120 WPM · 96.1%".toList := by
  have h : fetch_stats (FetchOutcome.resp 200 (some scenario1))
      = some ⟨120, PyNum.tenths 961⟩ := by
    simp [fetch_stats, scenario1_stats]
  rw [h]
  constructor
  · rfl
  · decide

/-- Claim C2 (confirmed).  For a decoded record list with at least one
record whose `wpm` field coerces to a number, the value
`listMax (wpms items)` is the maximum of all coerced wpm values (it is
one of them and an upper bound), the computed `best_wpm` is exactly its
Python rounding to the nearest integer, and the computed `best_wpm` is
unchanged under any permutation of the record list. -/
theorem best_speed_is_rounded_max_perm (items items2 : List JValue)
    (hp : items.Perm items2) (hne : wpms items ≠ []) :
    listMax (wpms items) ∈ wpms items ∧
    (∀ y ∈ wpms items, y ≤ listMax (wpms items)) ∧
    (statsOfData (JValue.arr items)).map Stats.best_wpm
      = some (pyRound (listMax (wpms items))) ∧
    (statsOfData (JValue.arr items)).map Stats.best_wpm
      = (statsOfData (JValue.arr items2)).map Stats.best_wpm := by
  have hi : items ≠ [] := by
    intro he
    exact hne (by rw [he]; rfl)
  have hproj : ∀ its : List JValue, its ≠ [] →
      (statsOfData (JValue.arr its)).map Stats.best_wpm
        = some (pyRound (listMax (wpms its))) := by
    intro its hits
    cases its with
    | nil => cases hits rfl
    | cons a l => rfl
  have hi2 : items2 ≠ [] := by
    intro he
    exact hi (List.Perm.eq_nil (he ▸ hp))
  have hwperm : (wpms items).Perm (wpms items2) := hp.filterMap recordWpm?
  refine ⟨listMax_mem _ hne, fun y hy => le_listMax _ y hy, hproj items hi, ?_⟩
  rw [hproj items hi, hproj items2 hi2, listMax_perm _ _ hwperm hne]

/-- Witness for `best_speed_is_rounded_max_perm` on the concrete pair of
record lists `permDemoA` / `permDemoB`. -/
theorem best_speed_is_rounded_max_perm_check :
    listMax (wpms permDemoA) ∈ wpms permDemoA ∧
    (∀ y ∈ wpms permDemoA, y ≤ listMax (wpms permDemoA)) ∧
    (statsOfData (JValue.arr permDemoA)).map Stats.best_wpm
      = some (pyRound (listMax (wpms permDemoA))) ∧
    (statsOfData (JValue.arr permDemoA)).map Stats.best_wpm
      = (statsOfData (JValue.arr permDemoB)).map Stats.best_wpm :=
  best_speed_is_rounded_max_perm permDemoA permDemoB
    (List.Perm.swap _ _ _) (by decide)

/-- Claim C3, counterexample.  For the empty record list the claim
asserts resulting statistics with `best_speed == 0`; the code instead
returns the absent sentinel (`None`) before aggregating, so there are no
resulting statistics at all. -/
theorem stats_empty_payload_absent :
    statsOfData (JValue.arr []) = none ∧
    (statsOfData (JValue.arr [])).map Stats.best_wpm ≠ some 0 := by
  exact ⟨rfl, by simp [statsOfData]⟩

/-- Claim C3 as amended (corrected).  For every *nonempty* record list
whose records all fail extraction (non-mapping records, missing fields,
or failed numeric coercion), the resulting statistics satisfy
`best_speed == 0` and `average_accuracy == 0`; for the empty record list
`fetch_stats` yields absent instead of statistics. -/
theorem stats_all_invalid_zero (items : List JValue) (hne : items ≠ [])
    (hall : ∀ r ∈ items, recordWpm? r = none ∧ recordAcc? r = none) :
    statsOfData (JValue.arr items) = some ⟨0, PyNum.intVal 0⟩ ∧
    statsOfData (JValue.arr []) = none := by
  have hw : wpms items = [] := List.filterMap_eq_nil_iff.mpr (fun a ha => (hall a ha).1)
  have ha : accs items = [] := List.filterMap_eq_nil_iff.mpr (fun a ha => (hall a ha).2)
  have h0 : pyRound 0 = 0 := pyRound_eq_down 0 0 (by norm_num) (by norm_num)
  refine ⟨?_, rfl⟩
  cases items with
  | nil => cases hne rfl
  | cons a l =>
    simp only [statsOfData, hw, ha, safe_int, listMax, h0]
    simp

/-- Witness for `stats_all_invalid_zero` on the one-record list whose
only record is JSON `null` (not a mapping, so both extractions fail). -/
theorem stats_all_invalid_zero_check :
    statsOfData (JValue.arr [JValue.null]) = some ⟨0, PyNum.intVal 0⟩ ∧
    statsOfData (JValue.arr []) = none :=
  stats_all_invalid_zero [JValue.null] (by simp)
    (by
      intro r hr
      rw [List.mem_singleton] at hr
      subst hr
      exact ⟨rfl, rfl⟩)

/-- Claim C4 (confirmed).  A transport failure, a status outside the 2xx
class, a JSON-decode failure (at any status), and a decoded payload that
is not a nonempty sequence all make `fetch_stats` return the absent
sentinel; and being a total Lean function it never raises. -/
theorem fetch_stats_absent_on_failures (st s2 : ℕ) (body : Option JValue) (data : JValue)
    (hst : st < 200 ∨ 300 ≤ st) (hdata : isNonemptyList data = false) :
    fetch_stats FetchOutcome.exc = none ∧
    fetch_stats (FetchOutcome.resp st body) = none ∧
    fetch_stats (FetchOutcome.resp s2 none) = none ∧
    fetch_stats (FetchOutcome.resp s2 (some data)) = none := by
  have hne : st ≠ 200 := by omega
  refine ⟨rfl, by simp [fetch_stats, hne], ?_, ?_⟩
  · by_cases h : s2 = 200
    · subst h; rfl
    · simp [fetch_stats, h]
  · by_cases h : s2 = 200
    · subst h
      simp [fetch_stats, statsOfData_eq_none data hdata]
    · simp [fetch_stats, h]

/-- Witness for `fetch_stats_absent_on_failures`: status 500 with any
body, an undecodable body at status 200, and the decoded-but-empty
payload `[]` at status 200. -/
theorem fetch_stats_absent_on_failures_check :
    fetch_stats FetchOutcome.exc = none ∧
    fetch_stats (FetchOutcome.resp 500 none) = none ∧
    fetch_stats (FetchOutcome.resp 200 none) = none ∧
    fetch_stats (FetchOutcome.resp 200 (some (JValue.arr []))) = none :=
  fetch_stats_absent_on_failures 500 200 none (JValue.arr []) (by omega) rfl

/-- Claim C5 (confirmed).  The right-segment width is
`max(60, 7 * len(text) + 20)`, it is monotone in the text length, it
equals the floor `60` whenever the length is at most `5`, and the
badge's total width is `72` (the fixed left width) plus the
right-segment width. -/
theorem right_width_formula (t1 t2 : List Char) :
    rightWidth t1 = max 60 (7 * t1.length + 20) ∧
    (t1.length ≤ t2.length → rightWidth t1 ≤ rightWidth t2) ∧
    (t1.length ≤ 5 → rightWidth t1 = 60) ∧
    badgeWidth t1 = 72 + rightWidth t1 := by
  refine ⟨rfl, ?_, ?_, rfl⟩
  · intro h
    exact max_le_max (le_refl 60) (by omega)
  · intro h
    exact max_eq_left (by omega)

/-- Witness for `right_width_formula` at a 3-character and a
7-character text. -/
theorem right_width_formula_check :
    rightWidth ['1', '2', '0'] ≤ rightWidth ['1', '2', '0', ' ', 'W', 'P', 'M'] ∧
    rightWidth ['1', '2', '0'] = 60 :=
  ⟨(right_width_formula ['1', '2', '0'] ['1', '2', '0', ' ', 'W', 'P', 'M']).2.1 (by decide),
   (right_width_formula ['1', '2', '0'] []).2.2.1 (by decide)⟩

/-- Claim C6 (confirmed).  `render_badge` is a total function on all
input strings (it cannot fail), the markup it returns is the fixed
template filled with the escaped input in the two label slots and the
value text node, and that escaped text contains no unescaped `<`, `>`
or `&` — so no special character of the input reaches a text node
unescaped. -/
theorem render_badge_text_nodes_escaped (text : List Char) :
    render_badge text = render_filled text (escapeHtml text) ∧
    wellEscaped (escapeHtml text) = true :=
  ⟨rfl, wellEscaped_escapeHtml text⟩

/-- Claim C7 (confirmed).  Badge rendering is deterministic: two calls
of `render_badge` on equal input text return equal markup.  (The Lean
model is a pure function of the text alone, mirroring that the script's
function reads no other state.) -/
theorem render_badge_deterministic (t1 t2 : List Char) (h : t1 = t2) :
    render_badge t1 = render_badge t2 := by
  rw [h]

/-- Witness for `render_badge_deterministic` on the text `"no data"`. -/
theorem render_badge_deterministic_check :
    render_badge ("no data".toList) = render_badge ("no data".toList) :=
  render_badge_deterministic ("no data".toList) ("no data".toList) rfl

/-- Claim C8 (confirmed).  Whenever `fetch_stats` computes statistics
from a decoded record list, the `avg_acc` field is the arithmetic mean
of the successfully coerced `acc` values rounded to one decimal place
(stored as tenths), and the int `0` when no accuracy value was
collected.  (For the empty record list no statistics are computed at
all — see `stats_empty_payload_absent`.) -/
theorem avg_acc_is_rounded_mean (items : List JValue) (s : Stats)
    (h : statsOfData (JValue.arr items) = some s) :
    s.avg_acc = if accs items = [] then PyNum.intVal 0
      else PyNum.tenths (pyRound (10 * (listSum (accs items) / ((accs items).length : ℚ)))) := by
  cases items with
  | nil => simp [statsOfData] at h
  | cons a l =>
    simp only [statsOfData] at h
    cases h
    rfl

/-- Witness for `avg_acc_is_rounded_mean` on the record list of
`sampleOkBody`, whose accuracy list is `[98]`. -/
theorem avg_acc_is_rounded_mean_check :
    (Stats.mk 100 (PyNum.tenths 980)).avg_acc =
      if accs [JValue.obj [(wpmKey, JValue.num 100), (accKey, JValue.num 98)]] = []
      then PyNum.intVal 0
      else PyNum.tenths (pyRound (10 *
        (listSum (accs [JValue.obj [(wpmKey, JValue.num 100), (accKey, JValue.num 98)]]) /
          ((accs [JValue.obj [(wpmKey, JValue.num 100), (accKey, JValue.num 98)]]).length : ℚ)))) :=
  avg_acc_is_rounded_mean [JValue.obj [(wpmKey, JValue.num 100), (accKey, JValue.num 98)]]
    ⟨100, PyNum.tenths 980⟩ sampleOkBody_stats

/-- Claim C9 (confirmed).  `fetch_stats` treats exactly status 200 as
success: for any status other than 200 — including 201, 204 and every
other success-class status — it returns the absent sentinel, and the
result does not depend on the body (the body is never decoded on that
path); status 200 with a well-formed body does succeed. -/
theorem fetch_stats_only_200 (st : ℕ) (hst : st ≠ 200) (b1 b2 : Option JValue) :
    fetch_stats (FetchOutcome.resp st b1) = none ∧
    fetch_stats (FetchOutcome.resp st b1) = fetch_stats (FetchOutcome.resp st b2) ∧
    fetch_stats (FetchOutcome.resp 200 (some sampleOkBody)) = some ⟨100, PyNum.tenths 980⟩ := by
  refine ⟨by simp [fetch_stats, hst], by simp [fetch_stats, hst], ?_⟩
  simp [fetch_stats, sampleOkBody_stats]

/-- Witness for `fetch_stats_only_200` at the success-class status 201. -/
theorem fetch_stats_only_200_check :
    fetch_stats (FetchOutcome.resp 201 none) = none ∧
    fetch_stats (FetchOutcome.resp 201 none)
      = fetch_stats (FetchOutcome.resp 201 (some JValue.null)) ∧
    fetch_stats (FetchOutcome.resp 200 (some sampleOkBody)) = some ⟨100, PyNum.tenths 980⟩ :=
  fetch_stats_only_200 201 (by decide) none (some JValue.null)

/-- Claim C10 (confirmed).  Per-record coercion accepts whatever Python
`float()` accepts, not only JSON numbers: a record whose `wpm` field is
a numeric string contributes the parsed value to the speed list, and a
record whose `acc` field is a boolean contributes `1.0`/`0.0` to the
accuracy list, instead of being skipped. -/
theorem float_coercion_strings_bools (s : List Char) (q : ℚ) (hq : strFloat? s = some q)
    (b : Bool) (kvs1 kvs2 : List (List Char × JValue))
    (h1 : jget kvs1 wpmKey = some (JValue.str s)) (h2 : jget kvs2 accKey = some (JValue.bool b))
    (pre post : List JValue) :
    wpms (pre ++ JValue.obj kvs1 :: post) = wpms pre ++ q :: wpms post ∧
    accs (pre ++ JValue.obj kvs2 :: post) = accs pre ++ (if b then 1 else 0) :: accs post := by
  constructor
  · have hr : recordWpm? (JValue.obj kvs1) = some q := by
      simp only [recordWpm?, h1, pyFloat]
      exact hq
    simp [wpms, List.filterMap_append, List.filterMap_cons, hr]
  · have hr : recordAcc? (JValue.obj kvs2) = some (if b then 1 else 0) := by
      simp only [recordAcc?, h2, pyFloat]
    simp [accs, List.filterMap_append, List.filterMap_cons, hr]

/-- Witness for `float_coercion_strings_bools`: the string `"120"`
contributes `120` to the speed list and the boolean `true` contributes
`1` to the accuracy list. -/
theorem float_coercion_strings_bools_check :
    wpms ([] ++ JValue.obj [(wpmKey, JValue.str ['1', '2', '0'])] :: []) =
      wpms [] ++ (120 : ℚ) :: wpms [] ∧
    accs ([] ++ JValue.obj [(accKey, JValue.bool true)] :: []) =
      accs [] ++ (if true then (1:ℚ) else 0) :: accs [] :=
  float_coercion_strings_bools ['1', '2', '0'] 120
    (by simp [strFloat?, takeDigits, digitsToNat]) true
    [(wpmKey, JValue.str ['1', '2', '0'])] [(accKey, JValue.bool true)]
    (by simp [jget, wpmKey]) (by simp [jget, accKey]) [] []
